import Mathlib

/-!
Verification of the agent orchestration core of the Graphite-Git client.

The definitions below are a shallow embedding of the code in
`components/AgentProvider.tsx` (the orchestrator / approval state machine and
the tool execution adapter) and of the file-content operations of
`services/githubService.ts` that the adapter calls.

Modelling conventions:
* JavaScript strings are Lean `String`s; the base64 encode/decode pair used at
  the transport boundary (`btoa(unescape(encodeURIComponent ...))` /
  `decodeURIComponent(escape(atob ...))`) is an inverse pair and is modelled
  as the identity, so a remote file stores its decoded text directly.  A
  GitHub "empty file" has `content = ""`, which is exactly the case in which
  the JavaScript truthiness test `if (fileObj.content)` fails.
* The remote repository is a finite map from `(owner, repo, path)` to a file
  `{content, sha}`; the git blob sha is injective in the content and is
  modelled by `mkSha`.  Version-token semantics of the GitHub contents API:
  a PUT on an existing path requires the current sha (stale sha = conflict,
  missing sha = unprocessable), a PUT on an absent path with no sha creates.
* Read requests can also fail for reasons other than absence (authorization,
  transport).  This is modelled by a fault parameter injected into every
  content read; `none` means the network behaves according to the stored
  state.
* The wall clock `Date.now()` is an ambient input, passed in as `now : Nat`.
* Calls issued to the remote adapter are recorded in a trace (`SvcCall`) so
  that frame properties ("no remote call was made") are provable.
-/

namespace Graphite

/-- Character-list test: does `s` start with `pat`?  (Structural recursion so
that closed instances reduce in the kernel.) -/
def startsWithCL : List Char → List Char → Bool
  | _, [] => true
  | [], _ :: _ => false
  | c :: cs, d :: ds => c == d && startsWithCL cs ds

/-- Character-list version of JavaScript `String.prototype.includes`. -/
def containsCL : List Char → List Char → Bool
  | [], pat => pat.isEmpty
  | c :: cs, pat => startsWithCL (c :: cs) pat || containsCL cs pat

/-- JavaScript `haystack.includes(needle)` (literal substring, not a regex). -/
def includesJs (s pat : String) : Bool :=
  containsCL s.data pat.data

/-- Character-list version of JavaScript `String.prototype.replace` with a
string pattern: only the FIRST occurrence of `pat` is replaced.  (The `$`
substitution sequences of a JavaScript replacement string are not modelled;
no claim exercises them.) -/
def replaceFirstCL : List Char → List Char → List Char → List Char
  | [], pat, rep => if pat.isEmpty then rep else []
  | c :: cs, pat, rep =>
    if pat.isEmpty then rep ++ c :: cs
    else if startsWithCL (c :: cs) pat then rep ++ (c :: cs).drop pat.length
    else c :: replaceFirstCL cs pat rep

/-- JavaScript `s.replace(pat, rep)` with a string pattern (first occurrence
only), as executed by the `replace_in_file` tool. -/
def jsReplaceFirst (s pat rep : String) : String :=
  ⟨replaceFirstCL s.data pat.data rep.data⟩

/-- Fuel-indexed replace-all on character lists (fuel = input length, so the
recursion is structural and kernel-reducible). -/
def replaceAllAux : Nat → List Char → List Char → List Char → List Char
  | 0, s, _, _ => s
  | _ + 1, [], _, _ => []
  | n + 1, c :: cs, pat, rep =>
    if !pat.isEmpty && startsWithCL (c :: cs) pat then
      rep ++ replaceAllAux n ((c :: cs).drop pat.length) pat rep
    else c :: replaceAllAux n cs pat rep

/-- Modelled from the spec: replacement of EVERY occurrence of the exact
search text (the behaviour the specification — and the code's own comment —
ascribe to `replace_in_file`).  For an empty pattern the string is returned
unchanged; the spec only speaks about exact non-empty search blocks. -/
def replaceAllSpec (s pat rep : String) : String :=
  ⟨replaceAllAux s.data.length s.data pat.data rep.data⟩

/-- Status of a tool invocation (spec §3; the code stores these as string
literals on `ToolCall.status`). -/
inductive ToolStatus
  | pending
  | approved
  | rejected
  | executed
  | failed
deriving DecidableEq

/-- Role tag of a chat message (`ChatMessage.role` in `types.ts`). -/
inductive Role
  | user
  | model
  | system
  | function
deriving DecidableEq

/-- The argument object of a tool call.  `owner`/`repo`/`path` are optional in
the declared schema (inferred from context when missing); `content`,
`search`, `replace` and `message` are declared required for the tools that
use them, so they are modelled as plain strings. -/
structure ToolArgs where
  owner : Option String := none
  repo : Option String := none
  path : Option String := none
  content : String := ""
  search : String := ""
  replace : String := ""
  message : String := ""
deriving DecidableEq

/-- A tool invocation proposed by the reasoning engine
(`ToolCall` in `types.ts`). -/
structure ToolCall where
  id : String
  name : String
  args : ToolArgs
  status : ToolStatus
deriving DecidableEq

/-- The recorded outcome of one executed tool call
(`ChatMessage.toolResponse`). -/
structure ToolResponse where
  name : String
  result : String
deriving DecidableEq

/-- One turn of the conversation (`ChatMessage` in `types.ts`). -/
structure ChatMessage where
  id : String
  role : Role
  text : Option String := none
  timestamp : Nat := 0
  toolCalls : Option (List ToolCall) := none
  toolResponse : Option ToolResponse := none
deriving DecidableEq

/-- The two fields of a `GitHubRepo` that the agent core reads
(`repo.owner.login` and `repo.name`). -/
structure Repo where
  ownerLogin : String
  name : String
deriving DecidableEq

/-- The UI/workspace snapshot disclosed to the agent
(`AgentContextState`).  `currentFile` is opaque to the core and is modelled
by its name. -/
structure AgentContextState where
  activeTab : String
  currentRepo : Option Repo := none
  currentPath : Option String := none
  currentFile : Option String := none
  fileContent : Option String := none
  currentSelection : Option String := none
deriving DecidableEq

/-- The user-controlled disclosure policy (`AgentContextSettings`). -/
structure AgentContextSettings where
  includeRepoMap : Bool
  includeFileContent : Bool
  includeSelection : Bool
deriving DecidableEq

/-- The object produced by `getFilteredContext` and serialized into the
engine's system instruction.  A `none` field corresponds to a property that
is absent (or `undefined`) in the JavaScript object. -/
structure FilteredContext where
  activeTab : String
  currentRepo : Option Repo := none
  currentPath : Option String := none
  currentFile : Option String := none
  fileContent : Option String := none
  currentSelection : Option String := none
deriving DecidableEq

/-- `getFilteredContext` of `AgentProvider.tsx`: always discloses the active
tab; repo and path iff `includeRepoMap`; file and content iff
`includeFileContent`; selection iff `includeSelection`. -/
def getFilteredContext (st : AgentContextState) (settings : AgentContextSettings) :
    FilteredContext :=
  { activeTab := st.activeTab
    currentRepo := if settings.includeRepoMap then st.currentRepo else none
    currentPath := if settings.includeRepoMap then st.currentPath else none
    currentFile := if settings.includeFileContent then st.currentFile else none
    fileContent := if settings.includeFileContent then st.fileContent else none
    currentSelection := if settings.includeSelection then st.currentSelection else none }

/-- A remote file as stored by the contents API: decoded text plus blob sha. -/
structure GitHubFile where
  content : String
  sha : String
deriving DecidableEq

/-- Key of a remote file: owner, repository name, path. -/
abbrev Key := String × String × String

/-- The remote repository state: a finite association of keys to files. -/
structure RemoteState where
  files : List (Key × GitHubFile)
deriving DecidableEq

/-- Git blob sha of a content (modelled injectively). -/
def mkSha (content : String) : String := "blob-" ++ content

/-- Store a file under a key, replacing any previous entry. -/
def RemoteState.set (rs : RemoteState) (k : Key) (f : GitHubFile) : RemoteState :=
  ⟨(k, f) :: rs.files.filter (fun pr => !(pr.1 == k))⟩

/-- Remove the entry of a key. -/
def RemoteState.remove (rs : RemoteState) (k : Key) : RemoteState :=
  ⟨rs.files.filter (fun pr => !(pr.1 == k))⟩

/-- Errors of the remote adapter, with the messages produced by
`GitHubService.fetch` (`githubService.ts`). -/
inductive GhError
  | notFound
  | unauthorized
  | forbidden
  | conflict
  | unprocessable
  | transport (msg : String)
deriving DecidableEq

/-- The `e.message` string observed when a service call throws. -/
def GhError.message : GhError → String
  | .notFound => "GitHub API Error: Not Found (404)"
  | .unauthorized => "Unauthorized: Invalid Token"
  | .forbidden => "Forbidden: Check Token Scopes (needs \"user\" or \"user:follow\")"
  | .conflict => "GitHub API Error: Conflict (409)"
  | .unprocessable => "GitHub API Error: Unprocessable Entity (422)"
  | .transport msg => msg

/-- `GitHubService.getRepoContents` for a file path: returns the stored file,
`notFound` if absent.  `fault` injects a failure of any kind (authorization,
transport, ...) on the read path. -/
def getRepoContents (fault : Option GhError) (rs : RemoteState) (o r p : String) :
    Except GhError GitHubFile :=
  match fault with
  | some e => .error e
  | none =>
    match rs.files.lookup (o, r, p) with
    | some f => .ok f
    | none => .error .notFound

/-- `GitHubService.updateFile` (PUT to the contents API): create when the path
is absent and no sha is sent; update when the sent sha matches the stored
one; conflict on a stale sha; unprocessable when updating without a sha. -/
def updateFile (rs : RemoteState) (o r p content : String) (sha : Option String) :
    Except GhError RemoteState :=
  match rs.files.lookup (o, r, p), sha with
  | some f, some s =>
    if s = f.sha then .ok (rs.set (o, r, p) ⟨content, mkSha content⟩)
    else .error .conflict
  | some _, none => .error .unprocessable
  | none, some _ => .error .notFound
  | none, none => .ok (rs.set (o, r, p) ⟨content, mkSha content⟩)

/-- The raw DELETE request of the contents API (requires the current sha). -/
def deleteContent (rs : RemoteState) (o r p sha : String) :
    Except GhError RemoteState :=
  match rs.files.lookup (o, r, p) with
  | some f => if sha = f.sha then .ok (rs.remove (o, r, p)) else .error .conflict
  | none => .error .notFound

/-- A request issued to the remote repository adapter (the trace alphabet). -/
inductive SvcCall
  | getContents (owner repo path : String)
  | putFile (owner repo path content : String) (sha : Option String) (message : String)
  | delFile (owner repo path sha message : String)
deriving DecidableEq

/-- Outcome of one `executeTool` run: the result string handed back to the
conversation, the remote state afterwards, the mutation counter
(`lastActionTimestamp`) afterwards, and the trace of remote requests issued. -/
structure ExecOutcome where
  result : String
  remote : RemoteState
  lastActionTimestamp : Nat
  calls : List SvcCall
deriving DecidableEq

/-- JavaScript `a || b` on two optional strings: `a` wins iff it is truthy
(present and non-empty). -/
def jsOrOpt (a b : Option String) : Option String :=
  match a with
  | some s => if s = "" then b else some s
  | none => b

/-- JavaScript falsiness of an optional string (`!x`). -/
def isFalsy (o : Option String) : Bool :=
  match o with
  | none => true
  | some s => s == ""

/-- `const owner = args.owner || contextState.currentRepo?.owner.login`. -/
def resolveOwner (args : ToolArgs) (ctx : AgentContextState) : Option String :=
  jsOrOpt args.owner (ctx.currentRepo.map (fun rp => rp.ownerLogin))

/-- `const repo = args.repo || contextState.currentRepo?.name`. -/
def resolveRepo (args : ToolArgs) (ctx : AgentContextState) : Option String :=
  jsOrOpt args.repo (ctx.currentRepo.map (fun rp => rp.name))

/-- `const path = args.path || contextState.currentPath || ''`. -/
def resolvePath (args : ToolArgs) (ctx : AgentContextState) : String :=
  (jsOrOpt args.path ctx.currentPath).getD ""

/-- Serialization stand-in for `JSON.stringify(files)` in the `list_files`
branch (its exact shape is irrelevant to every claim). -/
def jsonStringifyFile (f : GitHubFile) : String :=
  "\x7b\"content\":\"" ++ f.content ++ "\",\"sha\":\"" ++ f.sha ++ "\"\x7d"

/-- The `list_files` branch of `executeTool`. -/
def runListFiles (fault : Option GhError) (rs : RemoteState) (lastTs : Nat)
    (o r p : String) : ExecOutcome :=
  match getRepoContents fault rs o r p with
  | .ok f => ⟨jsonStringifyFile f, rs, lastTs, [.getContents o r p]⟩
  | .error e => ⟨"Error: " ++ e.message, rs, lastTs, [.getContents o r p]⟩

/-- The `read_file` branch of `executeTool`: the decoded text, or the explicit
marker when the content field is falsy. -/
def runReadFile (fault : Option GhError) (rs : RemoteState) (lastTs : Nat)
    (o r p : String) : ExecOutcome :=
  match getRepoContents fault rs o r p with
  | .ok f =>
    if f.content = "" then ⟨"File is empty or a directory.", rs, lastTs, [.getContents o r p]⟩
    else ⟨f.content, rs, lastTs, [.getContents o r p]⟩
  | .error e => ⟨"Error: " ++ e.message, rs, lastTs, [.getContents o r p]⟩

/-- The sha-probing read of the `create_or_update_file` branch:
`if (existing && existing.sha) sha = existing.sha`, with EVERY read failure
swallowed by the empty catch block. -/
def probeSha (fault : Option GhError) (rs : RemoteState) (o r p : String) :
    Option String :=
  match getRepoContents fault rs o r p with
  | .ok f => if f.sha ≠ "" then some f.sha else none
  | .error _ => none

/-- Outcome of an attempted write-back (`updateFile` / `deleteContent`): on
success the branch's success message with the counter set to `now`
(`setLastActionTimestamp(Date.now())` runs only after the await succeeds); on
a thrown error the caught `"Error: ..."` result with state and counter
untouched.  The issued requests `cs` are recorded either way. -/
def writeback (x : Except GhError RemoteState) (succ : String)
    (rs : RemoteState) (lastTs now : Nat) (cs : List SvcCall) : ExecOutcome :=
  match x with
  | .ok rs' => ⟨succ, rs', now, cs⟩
  | .error e => ⟨"Error: " ++ e.message, rs, lastTs, cs⟩

/-- The `create_or_update_file` branch of `executeTool`. -/
def runCreate (fault : Option GhError) (rs : RemoteState) (lastTs now : Nat)
    (o r p content msg : String) : ExecOutcome :=
  writeback (updateFile rs o r p content (probeSha fault rs o r p))
    "Success: File created/updated." rs lastTs now
    [.getContents o r p, .putFile o r p content (probeSha fault rs o r p) msg]

/-- The `replace_in_file` branch of `executeTool`: read, require the exact
search text, replace (JavaScript first-occurrence `replace`), write back with
the sha just read. -/
def runReplace (fault : Option GhError) (rs : RemoteState) (lastTs now : Nat)
    (o r p sea rep msg : String) : ExecOutcome :=
  match getRepoContents fault rs o r p with
  | .error e => ⟨"Error: " ++ e.message, rs, lastTs, [.getContents o r p]⟩
  | .ok f =>
    if f.content = "" then
      ⟨"Error: File is empty or not found", rs, lastTs, [.getContents o r p]⟩
    else if includesJs f.content sea = false then
      ⟨"Error: Could not find the \x27search\x27 text in the file. Ensure the search block matches the file content exactly.",
        rs, lastTs, [.getContents o r p]⟩
    else
      writeback (updateFile rs o r p (jsReplaceFirst f.content sea rep) (some f.sha))
        "Success: Content replaced." rs lastTs now
        [.getContents o r p,
         .putFile o r p (jsReplaceFirst f.content sea rep) (some f.sha) msg]

/-- The `delete_file` branch of `executeTool`, inlining
`GitHubService.deleteFile`: no sha is passed by the caller, so the service
reads first (any read failure becomes the "File not found" message) and then
issues the DELETE with the sha just read. -/
def runDelete (fault : Option GhError) (rs : RemoteState) (lastTs now : Nat)
    (o r p msg : String) : ExecOutcome :=
  match getRepoContents fault rs o r p with
  | .error _ =>
    ⟨"Error: " ++ ("Cannot delete file. File not found: " ++ p), rs, lastTs,
      [.getContents o r p]⟩
  | .ok f =>
    writeback (deleteContent rs o r p f.sha) "Success: File deleted." rs lastTs now
      [.getContents o r p, .delFile o r p f.sha msg]

/-- The `switch (name)` dispatch of `executeTool`. -/
def dispatchTool (fault : Option GhError) (rs : RemoteState) (lastTs now : Nat)
    (o r p : String) (tool : ToolCall) : ExecOutcome :=
  if tool.name = "list_files" then runListFiles fault rs lastTs o r p
  else if tool.name = "read_file" then runReadFile fault rs lastTs o r p
  else if tool.name = "create_or_update_file" then
    runCreate fault rs lastTs now o r p tool.args.content tool.args.message
  else if tool.name = "replace_in_file" then
    runReplace fault rs lastTs now o r p tool.args.search tool.args.replace tool.args.message
  else if tool.name = "delete_file" then
    runDelete fault rs lastTs now o r p tool.args.message
  else ⟨"Error: Unknown tool.", rs, lastTs, []⟩

/-- `executeTool` of `AgentProvider.tsx`: service guard, owner/repo/path
inference, context check, then the tool switch wrapped in try/catch (each
branch above already encodes its catch as an `"Error: ..."` result). -/
def executeTool (hasService : Bool) (fault : Option GhError)
    (ctx : AgentContextState) (rs : RemoteState) (lastTs now : Nat)
    (tool : ToolCall) : ExecOutcome :=
  if hasService = false then ⟨"Error: No GitHub service connection.", rs, lastTs, []⟩
  else if isFalsy (resolveOwner tool.args ctx) || isFalsy (resolveRepo tool.args ctx) then
    ⟨"Error: Context (owner/repo) is missing and not provided.", rs, lastTs, []⟩
  else
    dispatchTool fault rs lastTs now ((resolveOwner tool.args ctx).getD "")
      ((resolveRepo tool.args ctx).getD "") (resolvePath tool.args ctx) tool

/-- One part of a serialized engine request (`parts` arrays built by
`getGeminiHistory`). -/
inductive GeminiPart
  | text (s : String)
  | functionCall (name : String) (args : ToolArgs)
  | functionResponse (name result : String)
deriving DecidableEq

/-- One entry of the serialized conversation sent to the reasoning engine. -/
structure GeminiContent where
  role : String
  parts : List GeminiPart
deriving DecidableEq

/-- Serialization of one chat message by `getGeminiHistory`: user turns keep
their text; model turns carry their (truthy) text followed by one
`functionCall` part per tool call; function turns carrying a tool response
become a user-role `functionResponse` part; EVERY other message — including
system turns — falls into the default branch and becomes a user-role text
part. -/
def serializeMsg (m : ChatMessage) : GeminiContent :=
  if m.role = .user then ⟨"user", [.text (m.text.getD "")]⟩
  else if m.role = .model then
    ⟨"model",
      (match m.text with
       | some t => if t = "" then [] else [GeminiPart.text t]
       | none => []) ++
      (m.toolCalls.getD []).map (fun tc => GeminiPart.functionCall tc.name tc.args)⟩
  else if m.role = .function then
    match m.toolResponse with
    | some tr => ⟨"user", [.functionResponse tr.name tr.result]⟩
    | none => ⟨"user", [.text (m.text.getD "")]⟩
  else ⟨"user", [.text (m.text.getD "")]⟩

/-- `getGeminiHistory` of `AgentProvider.tsx`. -/
def getGeminiHistory (msgs : List ChatMessage) : List GeminiContent :=
  msgs.map serializeMsg

/-- A user message as built by `sendMessage`
(`id = Date.now().toString()`). -/
def mkUserMsg (now : Nat) (text : String) : ChatMessage :=
  { id := toString now, role := .user, text := some text, timestamp := now }

/-- A system notice message as appended by `sendMessage` (missing key) and
`rejectToolCall`. -/
def mkSystemMsg (now : Nat) (text : String) : ChatMessage :=
  { id := toString now, role := .system, text := some text, timestamp := now }

/-- The function-result message appended by `approveToolCall`. -/
def mkFunctionMsg (now : Nat) (name result : String) : ChatMessage :=
  { id := toString now, role := .function, timestamp := now,
    toolResponse := some ⟨name, result⟩ }

/-- The provider state owned by `AgentProvider`: the flags that gate
`sendMessage`, the conversation, the single pending call, the busy flag, the
remote repository and the mutation counter.  `hasService`/`hasGemini` model
whether the `service` prop and the `gemini` instance are non-null. -/
structure OrchState where
  isEnabled : Bool
  hasService : Bool
  hasGemini : Bool
  messages : List ChatMessage
  pendingToolCall : Option ToolCall
  isThinking : Bool
  remote : RemoteState
  lastActionTimestamp : Nat
deriving DecidableEq

/-- What the synchronous prefix of `sendMessage` did: nothing (disabled or no
service), appended a configuration-error system turn (no engine key), or
appended the user turn and initiated the engine round-trip. -/
inductive SendOutcome
  | ignored
  | configError
  | engineCalled
deriving DecidableEq

/-- The synchronous prefix of `sendMessage` (`AgentProvider.tsx`, lines
133–150): the guards actually present in the code, the appended turn, and
whether an engine call is initiated.  Note there is NO guard on
`isThinking` or `pendingToolCall`. -/
def sendMessage (st : OrchState) (text : String) (now : Nat) :
    OrchState × SendOutcome :=
  if st.isEnabled = false ∨ st.hasService = false then (st, .ignored)
  else if st.hasGemini = false then
    ({ st with messages := st.messages ++
        [mkSystemMsg now "Error: Gemini API Key not configured. Please add it in Settings > Intelligence Engine."] },
     .configError)
  else
    ({ st with messages := st.messages ++ [mkUserMsg now text], isThinking := true },
     .engineCalled)

/-- One part of an engine response (`candidates[0].content.parts`). -/
structure EnginePart where
  text : Option String := none
  functionCall : Option (String × ToolArgs) := none
deriving DecidableEq

/-- The tool calls created by `processModelResponse`: one per `functionCall`
part, each with status `pending`.  (`id = Date.now().toString() +
Math.random()`; the random suffix is modelled by the position index.) -/
def mkProposedTools (parts : List EnginePart) (now : Nat) : List ToolCall :=
  (parts.filterMap (fun p => p.functionCall)).enum.map
    (fun pr => { id := toString now ++ "#" ++ toString pr.1,
                 name := pr.2.1, args := pr.2.2, status := .pending })

/-- Concatenation of the truthy text parts (`modelText` accumulation). -/
def modelTextOf (parts : List EnginePart) : String :=
  parts.foldl
    (fun acc p =>
      match p.text with
      | some t => if t = "" then acc else acc ++ t
      | none => acc) ""

/-- `processModelResponse` for a response with one candidate: append the model
turn; surface the FIRST proposed call (if any) as the pending call; clear the
busy flag. -/
def processModelResponse (st : OrchState) (parts : List EnginePart) (now : Nat) :
    OrchState :=
  let tools := mkProposedTools parts now
  { st with
    messages := st.messages ++
      [{ id := toString (now + 1), role := .model, text := some (modelTextOf parts),
         timestamp := now,
         toolCalls := if tools.isEmpty then none else some tools }],
    pendingToolCall := if tools.isEmpty then st.pendingToolCall else tools.head?,
    isThinking := false }

/-- Step 1 of `approveToolCall`: in the LAST message only, set the status of
the tool call with the given id to `executed` ("Mark as executed in UI") —
before the call is attempted. -/
def markExecuted (msgs : List ChatMessage) (callId : String) : List ChatMessage :=
  match msgs.getLast? with
  | none => msgs
  | some last =>
    match last.toolCalls with
    | none => msgs
    | some tcs =>
      msgs.dropLast ++
        [{ last with toolCalls := some (tcs.map
            (fun t => if t.id = callId then { t with status := .executed } else t)) }]

/-- Result of `approveToolCall`: the state once the function-result turn has
been appended (before the follow-up engine response arrives), the transient
message list rendered between step 1 and step 4, whether the follow-up engine
call was initiated, and the remote requests issued. -/
structure ApproveResult where
  state : OrchState
  transientMessages : List ChatMessage
  engineCalled : Bool
  calls : List SvcCall
deriving DecidableEq

/-- `approveToolCall` of `AgentProvider.tsx` up to the follow-up engine call:
(1) mark the pending call `executed` in the current messages (the transient
list), (2) clear the pending call and set the busy flag, (3) execute the
tool, (4) append the function-result turn to the message list CAPTURED AT
ENTRY (`const updatedMessages = [...messages, functionResponseMsg]` uses the
stale closure, so the step-1 marking is overwritten), then re-invoke the
engine. -/
def approveToolCall (fault : Option GhError) (ctx : AgentContextState)
    (st : OrchState) (now : Nat) : ApproveResult :=
  match st.pendingToolCall with
  | none => ⟨st, st.messages, false, []⟩
  | some tc =>
    if st.hasGemini = false then ⟨st, st.messages, false, []⟩
    else
      let out := executeTool st.hasService fault ctx st.remote st.lastActionTimestamp now tc
      ⟨{ st with
          messages := st.messages ++ [mkFunctionMsg now tc.name out.result],
          pendingToolCall := none,
          isThinking := true,
          remote := out.remote,
          lastActionTimestamp := out.lastActionTimestamp },
        markExecuted st.messages tc.id, true, out.calls⟩

/-- `rejectToolCall` of `AgentProvider.tsx`: clear the pending call and append
the cancellation notice.  No remote request is issued, and the remote state
and mutation counter are untouched. -/
def rejectToolCall (st : OrchState) (now : Nat) : OrchState :=
  { st with
    pendingToolCall := none,
    messages := st.messages ++ [mkSystemMsg now "Tool execution cancelled by user."] }

/-- Every result produced by a catch block starts with the character `E` of
its `"Error: "` prefix. -/
theorem err_head (m : String) : ("Error: " ++ m).data.head? = some 'E' := by
  cases m with
  | mk l => rfl

/-- Two strings whose first characters differ are different. -/
theorem ne_of_headE (s t : String) (hs : s.data.head? = some 'E')
    (ht : t.data.head? ≠ some 'E') : s ≠ t :=
  fun he => ht (he ▸ hs)

/-- A caught-error result is never equal to a string that does not start with
`E` (in particular never equal to a success message). -/
theorem err_ne (m t : String) (h : t.data.head? ≠ some 'E') :
    "Error: " ++ m ≠ t :=
  ne_of_headE _ _ (err_head m) h

/-- C8: the context projection always passes the active view through, passes
repository and path through iff `includeRepoMap`, file and content iff
`includeFileContent`, selection iff `includeSelection`; and switching any one
flag off removes exactly the corresponding fields of the projection and
nothing else. -/
theorem c8_context_projection (st : AgentContextState) (p : AgentContextSettings) :
    (getFilteredContext st p).activeTab = st.activeTab
    ∧ (getFilteredContext st p).currentRepo
        = (if p.includeRepoMap then st.currentRepo else none)
    ∧ (getFilteredContext st p).currentPath
        = (if p.includeRepoMap then st.currentPath else none)
    ∧ (getFilteredContext st p).currentFile
        = (if p.includeFileContent then st.currentFile else none)
    ∧ (getFilteredContext st p).fileContent
        = (if p.includeFileContent then st.fileContent else none)
    ∧ (getFilteredContext st p).currentSelection
        = (if p.includeSelection then st.currentSelection else none)
    ∧ getFilteredContext st { p with includeRepoMap := false }
        = { getFilteredContext st p with currentRepo := none, currentPath := none }
    ∧ getFilteredContext st { p with includeFileContent := false }
        = { getFilteredContext st p with currentFile := none, fileContent := none }
    ∧ getFilteredContext st { p with includeSelection := false }
        = { getFilteredContext st p with currentSelection := none } := by
  obtain ⟨b1, b2, b3⟩ := p
  cases b1 <;> cases b2 <;> cases b3 <;>
    exact ⟨rfl, rfl, rfl, rfl, rfl, rfl, rfl, rfl, rfl⟩

/-- C9: rejecting a pending tool call clears the pending call and appends the
cancellation notice, and leaves the remote repository state, the mutation
counter and every previously recorded turn unchanged — in particular no
remote repository adapter request results from it. -/
theorem c9_reject_no_side_effects (st : OrchState) (now : Nat) :
    (rejectToolCall st now).remote = st.remote
    ∧ (rejectToolCall st now).lastActionTimestamp = st.lastActionTimestamp
    ∧ (rejectToolCall st now).pendingToolCall = none
    ∧ (rejectToolCall st now).messages
        = st.messages ++ [mkSystemMsg now "Tool execution cancelled by user."] :=
  ⟨rfl, rfl, rfl, rfl⟩

/-- C7: owner is taken from `args.owner` when provided (non-empty), else
inferred from the context repository's owner; likewise repo from `args.repo`
else the context repository's name; path from `args.path`, else the context
path, else `""`; and when owner or repo stay unresolved the tool returns the
context error without issuing any remote request and without touching the
remote state or the counter. -/
theorem c7_context_inference (args : ToolArgs) (ctx : AgentContextState) :
    (∀ o, args.owner = some o → o ≠ "" → resolveOwner args ctx = some o)
    ∧ (args.owner = none →
        resolveOwner args ctx = ctx.currentRepo.map (fun rp => rp.ownerLogin))
    ∧ (∀ r, args.repo = some r → r ≠ "" → resolveRepo args ctx = some r)
    ∧ (args.repo = none →
        resolveRepo args ctx = ctx.currentRepo.map (fun rp => rp.name))
    ∧ (∀ p, args.path = some p → p ≠ "" → resolvePath args ctx = p)
    ∧ (args.path = none → ∀ q, ctx.currentPath = some q → resolvePath args ctx
        = (if q = "" then "" else q))
    ∧ (args.path = none → ctx.currentPath = none → resolvePath args ctx = "")
    ∧ (∀ fault rs lastTs now (tc : ToolCall), tc.args = args →
        (isFalsy (resolveOwner args ctx) = true ∨ isFalsy (resolveRepo args ctx) = true) →
        executeTool true fault ctx rs lastTs now tc
          = ⟨"Error: Context (owner/repo) is missing and not provided.", rs, lastTs, []⟩) := by
  refine ⟨?_, ?_, ?_, ?_, ?_, ?_, ?_, ?_⟩
  · intro o ho hne; simp [resolveOwner, jsOrOpt, ho, hne]
  · intro ho; simp [resolveOwner, jsOrOpt, ho]
  · intro r hr hne; simp [resolveRepo, jsOrOpt, hr, hne]
  · intro hr; simp [resolveRepo, jsOrOpt, hr]
  · intro p hp hne; simp [resolvePath, jsOrOpt, hp, hne]
  · intro hp q hq
    by_cases hqe : q = "" <;> simp [resolvePath, jsOrOpt, hp, hq, hqe]
  · intro hp hq; simp [resolvePath, jsOrOpt, hp, hq]
  · intro fault rs lastTs now tc hargs hun
    rcases hun with h | h <;> simp [executeTool, hargs, h]

/-- C7 witness: an explicit owner argument wins; with no argument and no
context repository the tool fails with the context error and an empty
request trace. -/
theorem c7_context_inference_witness :
    resolveOwner ⟨some "alice", none, none, "", "", "", ""⟩
        ⟨"repos", some ⟨"bob", "proj"⟩, none, none, none, none⟩ = some "alice"
    ∧ resolveRepo ⟨none, none, none, "", "", "", ""⟩
        ⟨"repos", some ⟨"bob", "proj"⟩, none, none, none, none⟩ = some "proj"
    ∧ executeTool true none ⟨"repos", none, none, none, none, none⟩ ⟨[]⟩ 0 5
        ⟨"t1", "list_files", ⟨none, none, none, "", "", "", ""⟩, .pending⟩
      = ⟨"Error: Context (owner/repo) is missing and not provided.", ⟨[]⟩, 0, []⟩ :=
  ⟨(c7_context_inference ⟨some "alice", none, none, "", "", "", ""⟩
      ⟨"repos", some ⟨"bob", "proj"⟩, none, none, none, none⟩).1 "alice" rfl (by decide),
   (c7_context_inference ⟨none, none, none, "", "", "", ""⟩
      ⟨"repos", some ⟨"bob", "proj"⟩, none, none, none, none⟩).2.2.2.1 rfl,
   (c7_context_inference ⟨none, none, none, "", "", "", ""⟩
      ⟨"repos", none, none, none, none, none⟩).2.2.2.2.2.2.2 none ⟨[]⟩ 0 5
      ⟨"t1", "list_files", ⟨none, none, none, "", "", "", ""⟩, .pending⟩ rfl
      (Or.inl (by decide))⟩

/-- C10: when the existence-probing read of `create_or_update_file` fails with
ANY error (authorization, transport, not-found, ...), the failure is
swallowed: the PUT is still issued, with no version token, and the entire
outcome is independent of which error the probe produced. -/
theorem c10_probe_failure_swallowed (e e' : GhError) (ctx : AgentContextState)
    (rs : RemoteState) (lastTs now : Nat) (tc : ToolCall)
    (hname : tc.name = "create_or_update_file")
    (ho : isFalsy (resolveOwner tc.args ctx) = false)
    (hr : isFalsy (resolveRepo tc.args ctx) = false) :
    (executeTool true (some e) ctx rs lastTs now tc).calls
      = [.getContents ((resolveOwner tc.args ctx).getD "")
           ((resolveRepo tc.args ctx).getD "") (resolvePath tc.args ctx),
         .putFile ((resolveOwner tc.args ctx).getD "")
           ((resolveRepo tc.args ctx).getD "") (resolvePath tc.args ctx)
           tc.args.content none tc.args.message]
    ∧ executeTool true (some e) ctx rs lastTs now tc
        = executeTool true (some e') ctx rs lastTs now tc := by
  have hprobe : ∀ (x : GhError) (o r p : String), probeSha (some x) rs o r p = none := by
    intro x o r p; rfl
  constructor
  · simp [executeTool, ho, hr, dispatchTool, hname, runCreate, hprobe]
    cases h : updateFile rs ((resolveOwner tc.args ctx).getD "")
        ((resolveRepo tc.args ctx).getD "") (resolvePath tc.args ctx)
        tc.args.content none <;> simp [h, writeback]
  · simp [executeTool, ho, hr, dispatchTool, hname, runCreate, hprobe]

/-- C10 witness at a concrete input: an unauthorized probe and a forbidden
probe are both swallowed, and the PUT goes out without a version token. -/
theorem c10_probe_failure_swallowed_witness :
    (executeTool true (some .unauthorized)
        ⟨"repos", none, none, none, none, none⟩ ⟨[]⟩ 0 5
        ⟨"t1", "create_or_update_file",
          { owner := some "o", repo := some "r", path := some "a.txt",
            content := "hi", message := "add a" }, .pending⟩).calls
      = [.getContents "o" "r" "a.txt",
         .putFile "o" "r" "a.txt" "hi" none "add a"] :=
  (c10_probe_failure_swallowed .unauthorized .forbidden
    ⟨"repos", none, none, none, none, none⟩ ⟨[]⟩ 0 5
    ⟨"t1", "create_or_update_file",
      { owner := some "o", repo := some "r", path := some "a.txt",
        content := "hi", message := "add a" }, .pending⟩
    rfl (by decide) (by decide)).1

/-- C4 counterexample: an existing but EMPTY remote file.  The search string
`"x"` does not occur in the current content `""`, yet execution fails with
`"Error: File is empty or not found"` — not with the patch-mismatch message
the claim requires.  (No write is performed, as before.) -/
theorem c4_empty_file_other_error :
    includesJs "" "x" = false
    ∧ (executeTool true none ⟨"repos", none, none, none, none, none⟩
        ⟨[(("o", "r", "a.txt"), ⟨"", "s0"⟩)]⟩ 0 5
        ⟨"t1", "replace_in_file",
          { owner := some "o", repo := some "r", path := some "a.txt",
            search := "x", replace := "y", message := "m" }, .pending⟩).result
      = "Error: File is empty or not found"
    ∧ (executeTool true none ⟨"repos", none, none, none, none, none⟩
        ⟨[(("o", "r", "a.txt"), ⟨"", "s0"⟩)]⟩ 0 5
        ⟨"t1", "replace_in_file",
          { owner := some "o", repo := some "r", path := some "a.txt",
            search := "x", replace := "y", message := "m" }, .pending⟩).result
      ≠ "Error: Could not find the \x27search\x27 text in the file. Ensure the search block matches the file content exactly." := by
  refine ⟨by decide, by decide, by decide⟩

/-- C4 as amended: for a `replace_in_file` invocation on an existing file
whose current content is NON-EMPTY and does not contain the search string,
execution fails with exactly the patch-mismatch message, no write request is
issued (only the read), and the remote state and mutation counter are
unchanged.  (On an existing empty file the same safety holds but the message
is the distinct `"Error: File is empty or not found"`.) -/
theorem c4_patch_mismatch_no_write (ctx : AgentContextState) (rs : RemoteState)
    (lastTs now : Nat) (tc : ToolCall) (f : GitHubFile)
    (hname : tc.name = "replace_in_file")
    (ho : isFalsy (resolveOwner tc.args ctx) = false)
    (hr : isFalsy (resolveRepo tc.args ctx) = false)
    (hf : rs.files.lookup ((resolveOwner tc.args ctx).getD "",
            (resolveRepo tc.args ctx).getD "", resolvePath tc.args ctx) = some f)
    (hne : f.content ≠ "")
    (hmiss : includesJs f.content tc.args.search = false) :
    (executeTool true none ctx rs lastTs now tc).result
      = "Error: Could not find the \x27search\x27 text in the file. Ensure the search block matches the file content exactly."
    ∧ (executeTool true none ctx rs lastTs now tc).remote = rs
    ∧ (executeTool true none ctx rs lastTs now tc).lastActionTimestamp = lastTs
    ∧ (executeTool true none ctx rs lastTs now tc).calls
      = [.getContents ((resolveOwner tc.args ctx).getD "")
           ((resolveRepo tc.args ctx).getD "") (resolvePath tc.args ctx)] := by
  refine ⟨?_, ?_, ?_, ?_⟩ <;>
    simp [executeTool, ho, hr, dispatchTool, hname, runReplace,
      getRepoContents, hf, hne, hmiss]

/-- C4 witness: spec scenario C — content `"hello"`, search `"hi"`. -/
theorem c4_patch_mismatch_no_write_witness :
    (executeTool true none ⟨"repos", none, none, none, none, none⟩
        ⟨[(("o", "r", "a.txt"), ⟨"hello", mkSha "hello"⟩)]⟩ 0 5
        ⟨"t1", "replace_in_file",
          { owner := some "o", repo := some "r", path := some "a.txt",
            search := "hi", replace := "bye", message := "m" }, .pending⟩).result
      = "Error: Could not find the \x27search\x27 text in the file. Ensure the search block matches the file content exactly." :=
  (c4_patch_mismatch_no_write ⟨"repos", none, none, none, none, none⟩
    ⟨[(("o", "r", "a.txt"), ⟨"hello", mkSha "hello"⟩)]⟩ 0 5
    ⟨"t1", "replace_in_file",
      { owner := some "o", repo := some "r", path := some "a.txt",
        search := "hi", replace := "bye", message := "m" }, .pending⟩
    ⟨"hello", mkSha "hello"⟩ rfl (by decide) (by decide) (by decide)
    (by decide) (by decide)).1

/-- The three tool names whose branches call `setLastActionTimestamp`. -/
def isMutatingName (n : String) : Bool :=
  n == "create_or_update_file" || n == "replace_in_file" || n == "delete_file"

/-- The success result string of each mutating tool. -/
def mutSuccessMsg (n : String) : String :=
  if n = "create_or_update_file" then "Success: File created/updated."
  else if n = "replace_in_file" then "Success: Content replaced."
  else if n = "delete_file" then "Success: File deleted."
  else ""

theorem runListFiles_ts (fault : Option GhError) (rs : RemoteState)
    (lastTs : Nat) (o r p : String) :
    (runListFiles fault rs lastTs o r p).lastActionTimestamp = lastTs := by
  unfold runListFiles
  split <;> rfl

theorem runReadFile_ts (fault : Option GhError) (rs : RemoteState)
    (lastTs : Nat) (o r p : String) :
    (runReadFile fault rs lastTs o r p).lastActionTimestamp = lastTs := by
  unfold runReadFile
  split
  · split <;> rfl
  · rfl

/-- In a write-back outcome the counter equals `now` exactly on the success
result (for success strings not starting with `E`). -/
theorem writeback_ts (x : Except GhError RemoteState) (succ : String)
    (rs : RemoteState) (lastTs now : Nat) (cs : List SvcCall)
    (hsucc : succ.data.head? ≠ some 'E') :
    (writeback x succ rs lastTs now cs).lastActionTimestamp
      = if (writeback x succ rs lastTs now cs).result = succ then now else lastTs := by
  cases x with
  | ok rs' => simp [writeback]
  | error e =>
    unfold writeback
    dsimp only
    rw [if_neg (err_ne _ _ hsucc)]

theorem runCreate_ts (fault : Option GhError) (rs : RemoteState)
    (lastTs now : Nat) (o r p c msg : String) :
    (runCreate fault rs lastTs now o r p c msg).lastActionTimestamp
      = if (runCreate fault rs lastTs now o r p c msg).result
            = "Success: File created/updated." then now else lastTs := by
  unfold runCreate
  exact writeback_ts _ _ _ _ _ _ (by decide)

theorem runReplace_ts (fault : Option GhError) (rs : RemoteState)
    (lastTs now : Nat) (o r p sea rep msg : String) :
    (runReplace fault rs lastTs now o r p sea rep msg).lastActionTimestamp
      = if (runReplace fault rs lastTs now o r p sea rep msg).result
            = "Success: Content replaced." then now else lastTs := by
  unfold runReplace
  split
  · dsimp only
    rw [if_neg (err_ne _ _ (by decide))]
  · split
    · dsimp only
      rw [if_neg (by decide)]
    · split
      · dsimp only
        rw [if_neg (by decide)]
      · exact writeback_ts _ _ _ _ _ _ (by decide)

theorem runDelete_ts (fault : Option GhError) (rs : RemoteState)
    (lastTs now : Nat) (o r p msg : String) :
    (runDelete fault rs lastTs now o r p msg).lastActionTimestamp
      = if (runDelete fault rs lastTs now o r p msg).result
            = "Success: File deleted." then now else lastTs := by
  unfold runDelete
  split
  · dsimp only
    rw [if_neg (err_ne _ _ (by decide))]
  · exact writeback_ts _ _ _ _ _ _ (by decide)

/-- Counter behaviour of the tool dispatch: unchanged for non-mutating names,
and for mutating names set to `now` exactly on the success result. -/
theorem dispatchTool_ts (fault : Option GhError) (rs : RemoteState)
    (lastTs now : Nat) (o r p : String) (tool : ToolCall) :
    (isMutatingName tool.name = false →
      (dispatchTool fault rs lastTs now o r p tool).lastActionTimestamp = lastTs)
    ∧ (isMutatingName tool.name = true →
      (dispatchTool fault rs lastTs now o r p tool).lastActionTimestamp
        = if (dispatchTool fault rs lastTs now o r p tool).result
              = mutSuccessMsg tool.name then now else lastTs) := by
  by_cases h1 : tool.name = "list_files"
  · refine ⟨fun _ => ?_, fun hm => ?_⟩
    · simp [dispatchTool, h1, runListFiles_ts]
    · rw [h1] at hm; exact absurd hm (by decide)
  · by_cases h2 : tool.name = "read_file"
    · refine ⟨fun _ => ?_, fun hm => ?_⟩
      · simp [dispatchTool, h1, h2, runReadFile_ts]
      · rw [h2] at hm; exact absurd hm (by decide)
    · by_cases h3 : tool.name = "create_or_update_file"
      · refine ⟨fun hm => ?_, fun _ => ?_⟩
        · rw [h3] at hm; exact absurd hm (by decide)
        · simp [dispatchTool, h1, h2, h3, mutSuccessMsg, runCreate_ts]
      · by_cases h4 : tool.name = "replace_in_file"
        · refine ⟨fun hm => ?_, fun _ => ?_⟩
          · rw [h4] at hm; exact absurd hm (by decide)
          · simp [dispatchTool, h1, h2, h3, h4, mutSuccessMsg, runReplace_ts]
        · by_cases h5 : tool.name = "delete_file"
          · refine ⟨fun hm => ?_, fun _ => ?_⟩
            · rw [h5] at hm; exact absurd hm (by decide)
            · simp [dispatchTool, h1, h2, h3, h4, h5, mutSuccessMsg, runDelete_ts]
          · refine ⟨fun _ => ?_, fun hm => ?_⟩
            · simp [dispatchTool, h1, h2, h3, h4, h5]
            · exfalso
              simp only [isMutatingName, Bool.or_eq_true, beq_iff_eq] at hm
              obtain (h | h) | h := hm
              · exact h3 h
              · exact h4 h
              · exact h5 h

/-- C5: across every tool execution the mutation counter
(`lastActionTimestamp`) is unchanged on `list_files`, `read_file`, unknown
tools, missing-context failures and every failed mutating call, and on a
successful `create_or_update_file` / `replace_in_file` / `delete_file` it is
set (exactly once) to the current clock `now`, hence strictly increases. -/
theorem c5_mutation_counter (hasSvc : Bool) (fault : Option GhError)
    (ctx : AgentContextState) (rs : RemoteState) (lastTs now : Nat)
    (tool : ToolCall) (h : lastTs < now) :
    (isMutatingName tool.name = false →
      (executeTool hasSvc fault ctx rs lastTs now tool).lastActionTimestamp = lastTs)
    ∧ (isMutatingName tool.name = true →
      (executeTool hasSvc fault ctx rs lastTs now tool).lastActionTimestamp
        = if (executeTool hasSvc fault ctx rs lastTs now tool).result
              = mutSuccessMsg tool.name then now else lastTs)
    ∧ (isMutatingName tool.name = true →
      (executeTool hasSvc fault ctx rs lastTs now tool).result = mutSuccessMsg tool.name →
      lastTs < (executeTool hasSvc fault ctx rs lastTs now tool).lastActionTimestamp) := by
  have key :
      (isMutatingName tool.name = false →
        (executeTool hasSvc fault ctx rs lastTs now tool).lastActionTimestamp = lastTs)
      ∧ (isMutatingName tool.name = true →
        (executeTool hasSvc fault ctx rs lastTs now tool).lastActionTimestamp
          = if (executeTool hasSvc fault ctx rs lastTs now tool).result
                = mutSuccessMsg tool.name then now else lastTs) := by
    have hmut_msg : isMutatingName tool.name = true →
        ∀ s : String, s.data.head? = some 'E' → s ≠ mutSuccessMsg tool.name := by
      intro hm s hsh
      simp only [isMutatingName, Bool.or_eq_true, beq_iff_eq] at hm
      obtain (hn | hn) | hn := hm
      · rw [hn]; exact ne_of_headE s _ hsh (by decide)
      · rw [hn]; exact ne_of_headE s _ hsh (by decide)
      · rw [hn]; exact ne_of_headE s _ hsh (by decide)
    by_cases hs : hasSvc = false
    · refine ⟨fun _ => by simp [executeTool, hs], fun hm => ?_⟩
      simp [executeTool, hs,
        hmut_msg hm "Error: No GitHub service connection." (by decide)]
    · by_cases hctx : (isFalsy (resolveOwner tool.args ctx)
          || isFalsy (resolveRepo tool.args ctx)) = true
      · refine ⟨fun _ => by simp [executeTool, hs, hctx], fun hm => ?_⟩
        simp [executeTool, hs, hctx,
          hmut_msg hm "Error: Context (owner/repo) is missing and not provided." (by decide)]
      · have hctx' : (isFalsy (resolveOwner tool.args ctx)
            || isFalsy (resolveRepo tool.args ctx)) = false := by
          simpa using hctx
        have hd := dispatchTool_ts fault rs lastTs now
          ((resolveOwner tool.args ctx).getD "") ((resolveRepo tool.args ctx).getD "")
          (resolvePath tool.args ctx) tool
        refine ⟨fun hm => ?_, fun hm => ?_⟩
        · simpa [executeTool, hs, hctx'] using hd.1 hm
        · simpa [executeTool, hs, hctx'] using hd.2 hm
  refine ⟨key.1, key.2, fun hm hsucc => ?_⟩
  rw [key.2 hm, if_pos hsucc]
  exact h

/-- C5 witness: a successful `create_or_update_file` (create path) moves the
counter from 0 to 1 and a `read_file` leaves it at 0. -/
theorem c5_mutation_counter_witness :
    (0 : Nat) < 1
    ∧ (executeTool true none ⟨"repos", none, none, none, none, none⟩ ⟨[]⟩ 0 1
        ⟨"t1", "create_or_update_file",
          { owner := some "o", repo := some "r", path := some "a.txt",
            content := "hi", message := "add a" }, .pending⟩).lastActionTimestamp
      = (if (executeTool true none ⟨"repos", none, none, none, none, none⟩ ⟨[]⟩ 0 1
            ⟨"t1", "create_or_update_file",
              { owner := some "o", repo := some "r", path := some "a.txt",
                content := "hi", message := "add a" }, .pending⟩).result
            = mutSuccessMsg "create_or_update_file" then 1 else 0)
    ∧ (executeTool true none ⟨"repos", none, none, none, none, none⟩ ⟨[]⟩ 0 1
        ⟨"t2", "read_file",
          { owner := some "o", repo := some "r", path := some "a.txt" },
          .pending⟩).lastActionTimestamp = 0 :=
  ⟨by decide,
   (c5_mutation_counter true none ⟨"repos", none, none, none, none, none⟩ ⟨[]⟩ 0 1
     ⟨"t1", "create_or_update_file",
       { owner := some "o", repo := some "r", path := some "a.txt",
         content := "hi", message := "add a" }, .pending⟩ (by decide)).2.1 (by decide),
   (c5_mutation_counter true none ⟨"repos", none, none, none, none, none⟩ ⟨[]⟩ 0 1
     ⟨"t2", "read_file",
       { owner := some "o", repo := some "r", path := some "a.txt" },
       .pending⟩ (by decide)).1 (by decide)⟩

/-- C1: on the file content `"aa"` with search `"a"` and replacement `"b"`,
the code issues a write of `"ba"` — JavaScript `String.prototype.replace`
with a string pattern rewrites only the FIRST occurrence — whereas
replacement of every occurrence (the behaviour claimed by the spec and by
the code's own comment, which says `replaceAll` is used) would write `"bb"`. -/
theorem c1_replace_first_occurrence_only :
    (executeTool true none ⟨"repos", none, none, none, none, none⟩
        ⟨[(("o", "r", "a.txt"), ⟨"aa", mkSha "aa"⟩)]⟩ 0 5
        ⟨"t1", "replace_in_file",
          { owner := some "o", repo := some "r", path := some "a.txt",
            search := "a", replace := "b", message := "m" }, .pending⟩).calls
      = [.getContents "o" "r" "a.txt",
         .putFile "o" "r" "a.txt" "ba" (some (mkSha "aa")) "m"]
    ∧ (executeTool true none ⟨"repos", none, none, none, none, none⟩
        ⟨[(("o", "r", "a.txt"), ⟨"aa", mkSha "aa"⟩)]⟩ 0 5
        ⟨"t1", "replace_in_file",
          { owner := some "o", repo := some "r", path := some "a.txt",
            search := "a", replace := "b", message := "m" }, .pending⟩).result
      = "Success: Content replaced."
    ∧ replaceAllSpec "aa" "a" "b" = "bb"
    ∧ ("ba" : String) ≠ "bb" := by
  refine ⟨by decide, by decide, by decide, by decide⟩

/-- C2 counterexample: a conversation that is busy (`isThinking = true`, i.e.
the orchestrator is awaiting the engine) still accepts `sendMessage`: the
call appends a new user turn and initiates an engine round-trip instead of
being a no-op. -/
theorem c2_busy_send_not_noop :
    (OrchState.mk true true true [] none true ⟨[]⟩ 0).isThinking = true
    ∧ (sendMessage (OrchState.mk true true true [] none true ⟨[]⟩ 0) "second" 7).2
      = SendOutcome.engineCalled
    ∧ (sendMessage (OrchState.mk true true true [] none true ⟨[]⟩ 0) "second" 7).1.messages
      = [mkUserMsg 7 "second"] := by
  refine ⟨by decide, by decide, by decide⟩

/-- C2 as amended: `sendMessage` is a no-op only when the agent is disabled
or no remote service is connected; with no engine credential it appends a
configuration-error system turn; otherwise it ALWAYS appends exactly one
user turn and initiates the engine call — regardless of `isThinking` or of a
pending tool call, i.e. the in-flight guard claimed by the spec does not
exist in `sendMessage` itself (concurrent sends are prevented only by the
presentation layer disabling its send control). -/
theorem c2_sendMessage_guards (st : OrchState) (text : String) (now : Nat) :
    ((st.isEnabled = false ∨ st.hasService = false) →
      sendMessage st text now = (st, .ignored))
    ∧ (st.isEnabled = true → st.hasService = true → st.hasGemini = false →
      sendMessage st text now
        = ({ st with messages := st.messages ++
              [mkSystemMsg now "Error: Gemini API Key not configured. Please add it in Settings > Intelligence Engine."] },
           .configError))
    ∧ (st.isEnabled = true → st.hasService = true → st.hasGemini = true →
      sendMessage st text now
        = ({ st with
              messages := st.messages ++ [mkUserMsg now text],
              isThinking := true },
           .engineCalled)) := by
  refine ⟨fun h => ?_, fun h1 h2 h3 => ?_, fun h1 h2 h3 => ?_⟩
  · rcases h with h | h <;> simp [sendMessage, h]
  · simp [sendMessage, h1, h2, h3]
  · simp [sendMessage, h1, h2, h3]

/-- C2 witness: with everything configured and the orchestrator already
thinking, the accepting branch of `c2_sendMessage_guards` applies. -/
theorem c2_sendMessage_guards_witness :
    sendMessage (OrchState.mk true true true [] none true ⟨[]⟩ 0) "hi" 9
      = ({ OrchState.mk true true true [] none true ⟨[]⟩ 0 with
            messages := [] ++ [mkUserMsg 9 "hi"], isThinking := true },
         .engineCalled) :=
  (c2_sendMessage_guards (OrchState.mk true true true [] none true ⟨[]⟩ 0)
    "hi" 9).2.2 rfl rfl rfl

/-- C3 counterexample: a pending call whose attempt FAILS (`"Error: Unknown
tool."`).  The claimed lifecycle requires `approved` at approval and `failed`
after the failed attempt; the code instead marks the call `executed` at
approval time (before and regardless of the outcome) in the transient list,
and the finally stored history — rebuilt from the pre-approval snapshot —
still carries status `pending`.  Rejection likewise leaves the stored status
`pending` rather than `rejected`. -/
theorem c3_failed_attempt_not_marked_failed :
    (executeTool true none ⟨"dashboard", none, none, none, none, none⟩ ⟨[]⟩ 0 5
        ⟨"t1", "bogus_tool", { owner := some "o", repo := some "r" }, .pending⟩).result
      = "Error: Unknown tool."
    ∧ (approveToolCall none ⟨"dashboard", none, none, none, none, none⟩
        ⟨true, true, true,
         [⟨"1", .model, some "doing", 0,
           some [⟨"t1", "bogus_tool", { owner := some "o", repo := some "r" }, .pending⟩],
           none⟩],
         some ⟨"t1", "bogus_tool", { owner := some "o", repo := some "r" }, .pending⟩,
         false, ⟨[]⟩, 0⟩ 5).transientMessages
      = [⟨"1", .model, some "doing", 0,
          some [⟨"t1", "bogus_tool", { owner := some "o", repo := some "r" }, .executed⟩],
          none⟩]
    ∧ (approveToolCall none ⟨"dashboard", none, none, none, none, none⟩
        ⟨true, true, true,
         [⟨"1", .model, some "doing", 0,
           some [⟨"t1", "bogus_tool", { owner := some "o", repo := some "r" }, .pending⟩],
           none⟩],
         some ⟨"t1", "bogus_tool", { owner := some "o", repo := some "r" }, .pending⟩,
         false, ⟨[]⟩, 0⟩ 5).state.messages
      = [⟨"1", .model, some "doing", 0,
          some [⟨"t1", "bogus_tool", { owner := some "o", repo := some "r" }, .pending⟩],
          none⟩,
         mkFunctionMsg 5 "bogus_tool" "Error: Unknown tool."]
    ∧ (rejectToolCall
        ⟨true, true, true,
         [⟨"1", .model, some "doing", 0,
           some [⟨"t1", "bogus_tool", { owner := some "o", repo := some "r" }, .pending⟩],
           none⟩],
         some ⟨"t1", "bogus_tool", { owner := some "o", repo := some "r" }, .pending⟩,
         false, ⟨[]⟩, 0⟩ 5).messages
      = [⟨"1", .model, some "doing", 0,
          some [⟨"t1", "bogus_tool", { owner := some "o", repo := some "r" }, .pending⟩],
          none⟩,
         mkSystemMsg 5 "Tool execution cancelled by user."] := by
  refine ⟨by decide, by decide, by decide, by decide⟩

/-- C3 as amended: every proposed invocation is created `pending`; a denial
only clears the pending call and appends the cancellation notice, leaving
the stored status `pending`; an approval immediately rewrites the status to
`executed` in the rendered (transient) list — before the attempt and
independent of its outcome, so `approved` and `failed` are never assigned —
and the finally stored history is the pre-approval snapshot plus the
function-result turn, in which even the `executed` marking is lost. -/
theorem c3_status_lifecycle (fault : Option GhError) (ctx : AgentContextState)
    (st : OrchState) (now : Nat) (tc : ToolCall)
    (hp : st.pendingToolCall = some tc) (hg : st.hasGemini = true) :
    (approveToolCall fault ctx st now).transientMessages = markExecuted st.messages tc.id
    ∧ (approveToolCall fault ctx st now).state.messages
        = st.messages ++ [mkFunctionMsg now tc.name
            (executeTool st.hasService fault ctx st.remote st.lastActionTimestamp now tc).result]
    ∧ (approveToolCall fault ctx st now).state.pendingToolCall = none
    ∧ (rejectToolCall st now).messages
        = st.messages ++ [mkSystemMsg now "Tool execution cancelled by user."]
    ∧ (rejectToolCall st now).pendingToolCall = none
    ∧ (∀ parts now2 t, t ∈ mkProposedTools parts now2 → t.status = ToolStatus.pending) := by
  refine ⟨?_, ?_, ?_, rfl, rfl, ?_⟩
  · simp [approveToolCall, hp, hg]
  · simp [approveToolCall, hp, hg]
  · simp [approveToolCall, hp, hg]
  · intro parts now2 t ht
    simp only [mkProposedTools, List.mem_map] at ht
    obtain ⟨pr, hpr, ht⟩ := ht
    subst ht
    rfl

/-- C3 witness: the amended lifecycle applied to the concrete failed-attempt
scenario. -/
theorem c3_status_lifecycle_witness :
    (approveToolCall none ⟨"dashboard", none, none, none, none, none⟩
        ⟨true, true, true,
         [⟨"1", .model, some "doing", 0,
           some [⟨"t1", "bogus_tool", { owner := some "o", repo := some "r" }, .pending⟩],
           none⟩],
         some ⟨"t1", "bogus_tool", { owner := some "o", repo := some "r" }, .pending⟩,
         false, ⟨[]⟩, 0⟩ 5).transientMessages
      = markExecuted
          [⟨"1", .model, some "doing", 0,
            some [⟨"t1", "bogus_tool", { owner := some "o", repo := some "r" }, .pending⟩],
            none⟩] "t1" :=
  (c3_status_lifecycle none ⟨"dashboard", none, none, none, none, none⟩
    ⟨true, true, true,
     [⟨"1", .model, some "doing", 0,
       some [⟨"t1", "bogus_tool", { owner := some "o", repo := some "r" }, .pending⟩],
       none⟩],
     some ⟨"t1", "bogus_tool", { owner := some "o", repo := some "r" }, .pending⟩,
     false, ⟨[]⟩, 0⟩ 5
    ⟨"t1", "bogus_tool", { owner := some "o", repo := some "r" }, .pending⟩
    rfl rfl).1

/-- C6 counterexample: a history consisting of the cancellation notice (a
system turn) serializes to a user-role content carrying exactly that text —
the system turn's content IS part of the request sent to the engine. -/
theorem c6_system_turn_sent :
    (mkSystemMsg 3 "Tool execution cancelled by user.").role = Role.system
    ∧ getGeminiHistory [mkSystemMsg 3 "Tool execution cancelled by user."]
      = [⟨"user", [.text "Tool execution cancelled by user."]⟩] := by
  refine ⟨by decide, by decide⟩

/-- C6 as amended: system turns are NOT excluded from the serialized request;
every turn is serialized, and a system turn falls into the default branch of
`getGeminiHistory`, contributing a user-role text part that carries the
system turn's text. -/
theorem c6_system_turn_serialized_as_user (msgs : List ChatMessage)
    (m : ChatMessage) (hm : m ∈ msgs) (hrole : m.role = Role.system) :
    serializeMsg m = ⟨"user", [.text (m.text.getD "")]⟩
    ∧ GeminiContent.mk "user" [.text (m.text.getD "")] ∈ getGeminiHistory msgs := by
  have h1 : serializeMsg m = ⟨"user", [.text (m.text.getD "")]⟩ := by
    simp [serializeMsg, hrole]
  refine ⟨h1, ?_⟩
  have h2 := List.mem_map_of_mem serializeMsg hm
  rw [h1] at h2
  simpa [getGeminiHistory] using h2

/-- C6 witness: the debug-error system notice of a failed engine call is
serialized into the next request as user-role text. -/
theorem c6_system_turn_serialized_as_user_witness :
    serializeMsg (mkSystemMsg 4 "DEBUG ERROR: boom")
      = ⟨"user", [.text ((mkSystemMsg 4 "DEBUG ERROR: boom").text.getD "")]⟩ :=
  (c6_system_turn_serialized_as_user [mkSystemMsg 4 "DEBUG ERROR: boom"]
    (mkSystemMsg 4 "DEBUG ERROR: boom") (List.mem_singleton.mpr rfl) rfl).1

end Graphite
